import Mathlib

/-
Verification of the batched, concurrency-bounded pipeline orchestration of the
AiTradingSignals repository.

The embedding follows the Python sources:
  * openai_agents_sdk_trader_signals/schemas.py   (pydantic data model)
  * openai_agents_sdk_trader_signals/main.py      (pipeline orchestrator)
  * openai_agents_sdk_trader_signals/tools.py     (news fetcher tool)
  * entity-news-mcp/utils.py                      (news fetcher helpers)

Python floats carrying relationship and signal strengths are modelled as Rat:
the source only ever constructs and compares exact constants such as 1.0, where
rational arithmetic agrees with IEEE doubles.  Machine-level concerns (logging,
printing, actual HTTP transport) are elided; fallible Python code is modelled
with Except, and the distinct Python exception classes that the sources catch
selectively are modelled as an inductive type.
-/

/-! ## Data model (schemas.py) -/

/-- schemas.py, RelatedEntity: a related entity produced by the enrichment stage. -/
structure RelatedEntity where
  entity_name : String
  relationship_strength : Rat
  relationship_type : String
deriving DecidableEq

/-- schemas.py, EntityEnrichmentOutput. -/
structure EntityEnrichmentOutput where
  company_name : String
  entities : List RelatedEntity
deriving DecidableEq

/-- schemas.py, NewsArticle: its only fields are url, published_date, source and
title.  In particular it declares no per-article sentiment field. -/
structure NewsArticle where
  url : String
  published_date : String
  source : String
  title : String := ""
deriving DecidableEq

/-- schemas.py, EntityWithNews. -/
structure EntityWithNews where
  entity_name : String
  relationship_strength : Rat
  relationship_type : String
  news : List NewsArticle
deriving DecidableEq

/-- schemas.py, NewsAggregationOutput. -/
structure NewsAggregationOutput where
  company_name : String
  entities : List EntityWithNews
deriving DecidableEq

/-- schemas.py, SentimentToken. -/
structure SentimentToken where
  token_text : String
  impact : String
  direction : String
  strength : Rat
deriving DecidableEq

/-- schemas.py, EntityWithSentiment: the sentiment_tokens list is a field of the
entity itself, next to the news list, not of the contained articles. -/
structure EntityWithSentiment where
  entity_name : String
  relationship_strength : Rat
  relationship_type : String
  news : List NewsArticle
  sentiment_tokens : List SentimentToken
deriving DecidableEq

/-- schemas.py, SentimentAnalysisOutput. -/
structure SentimentAnalysisOutput where
  company_name : String
  entities : List EntityWithSentiment
deriving DecidableEq

/-! ## Python list and range primitives used by main.py -/

/-- Python slice `l[a:b]` for nonnegative bounds (out-of-range bounds clamp). -/
def pySlice {α : Type} (l : List α) (a b : Nat) : List α :=
  (l.take b).drop a

/-- Python `range(start, stop, step)` for a positive step. -/
def pyRangeStep (start stop step : Nat) : List Nat :=
  (List.range ((stop - start + step - 1) / step)).map (fun i => start + i * step)

/-- main.py line 204: `BATCH_SIZE = 2`. -/
def BATCH_SIZE : Nat := 2

/-- main.py line 205: `MAX_CONCURRENT_BATCHES = 3`. -/
def MAX_CONCURRENT_BATCHES : Nat := 3

/-- main.py lines 249-251: the sentiment stage slices the aggregation entity
list into batches, `batch_entities = news_data.entities[batch_start:batch_end]`
with `batch_end = min(batch_start + BATCH_SIZE, total_entities)` and
`batch_start` drawn from `range(0, total_entities, BATCH_SIZE)`. -/
def makeBatches (l : List EntityWithNews) : List (List EntityWithNews) :=
  (pyRangeStep 0 l.length BATCH_SIZE).map
    (fun s => pySlice l s (min (s + BATCH_SIZE) l.length))

/-! ## Generic chunking lemmas -/

theorem take_min_length {α : Type} (l : List α) (n : Nat) :
    l.take (min n l.length) = l.take n := by
  rw [List.take_eq_take]
  omega

theorem drop_take_chunk {α : Type} (l : List α) (a b : Nat) :
    (l.take (a + b)).drop a = (l.drop a).take b := by
  rw [List.drop_take]
  congr 1
  omega

theorem chunks_join_aux {α : Type} (B : Nat) :
    ∀ (m : Nat) (l : List α), l.length ≤ B * m →
      ((List.range m).map (fun i => (l.drop (B * i)).take B)).flatten = l := by
  intro m
  induction m with
  | zero =>
    intro l hl
    simp only [Nat.mul_zero, Nat.le_zero, List.length_eq_zero] at hl
    simp [hl]
  | succ m ih =>
    intro l hl
    have hlen2 : (l.drop B).length ≤ B * m := by
      rw [List.length_drop]
      rw [Nat.mul_succ] at hl
      omega
    have ihd := ih (l.drop B) hlen2
    rw [List.range_succ_eq_map, List.map_cons, List.map_map, List.flatten_cons]
    have hmap : List.map ((fun i => (l.drop (B * i)).take B) ∘ Nat.succ) (List.range m)
        = List.map (fun i => ((l.drop B).drop (B * i)).take B) (List.range m) := by
      apply List.map_congr_left
      intro i _
      simp only [Function.comp_apply, List.drop_drop, Nat.succ_eq_add_one, Nat.mul_succ,
        Nat.add_comm]
    rw [hmap, ihd]
    simp only [Nat.mul_zero, List.drop_zero]
    exact List.take_append_drop B l

theorem makeBatches_eq_chunks (l : List EntityWithNews) :
    makeBatches l
      = (List.range ((l.length + 1) / 2)).map (fun i => (l.drop (2 * i)).take 2) := by
  unfold makeBatches pyRangeStep BATCH_SIZE
  rw [List.map_map]
  apply List.map_congr_left
  intro i _
  simp only [Function.comp, pySlice, Nat.zero_add]
  rw [take_min_length, Nat.mul_comm i 2]
  rw [drop_take_chunk]

/-- C3: for an aggregation output with K entities and batch size B = 2, the
sentiment stage creates exactly ceil(K/B) batches (expressed both as the Python
expression `(K + B - 1) // B` and by the two inequalities characterising the
ceiling), and the batches concatenate back to the entity list in input order,
so every entity appears in exactly one batch. -/
theorem sentiment_batching_partitions (l : List EntityWithNews) :
    (makeBatches l).length = (l.length + BATCH_SIZE - 1) / BATCH_SIZE
    ∧ (makeBatches l).flatten = l
    ∧ l.length ≤ BATCH_SIZE * (makeBatches l).length
    ∧ BATCH_SIZE * (makeBatches l).length ≤ l.length + BATCH_SIZE - 1 := by
  have hlen : (makeBatches l).length = (l.length + 1) / 2 := by
    unfold makeBatches pyRangeStep BATCH_SIZE
    simp
  refine ⟨?_, ?_, ?_, ?_⟩
  · rw [hlen]; unfold BATCH_SIZE; norm_num
  · rw [makeBatches_eq_chunks]
    apply chunks_join_aux 2
    omega
  · rw [hlen]; unfold BATCH_SIZE; omega
  · rw [hlen]; unfold BATCH_SIZE; omega

/-! ## Sentiment-stage merge and reorder (main.py lines 258-291) -/

/-- Python dict assignment `d[key] = v` on an insertion-ordered dict, as used at
main.py line 279: an existing key keeps its position and gets the new value, a
new key is appended at the end. -/
def dictInsert : List (String × EntityWithSentiment) → String → EntityWithSentiment →
    List (String × EntityWithSentiment)
  | [], k, v => [(k, v)]
  | (a, b) :: rest, k, v =>
    if a = k then (k, v) :: rest else (a, b) :: dictInsert rest k v

/-- Python dict lookup `d[key]` combined with the `key in d` test of
main.py lines 285-286, as an Option. -/
def dictGet? : List (String × EntityWithSentiment) → String → Option EntityWithSentiment
  | [], _ => none
  | (a, b) :: rest, k => if a = k then some b else dictGet? rest k

/-- main.py lines 278-279: `for entity in entities: all_sentiment_entities_dict[entity.entity_name] = entity`. -/
def insertBatchEntities (d : List (String × EntityWithSentiment))
    (ents : List EntityWithSentiment) : List (String × EntityWithSentiment) :=
  ents.foldl (fun acc e => dictInsert acc e.entity_name e) d

/-- main.py lines 259-280: fold the per-batch results (given in the order the
orchestrator processes them; `none` is a failed batch, i.e. `entities is None`)
into the entity dict, starting from the empty dict created at line 259. -/
def mergeBatchResults (results : List (Option (List EntityWithSentiment))) :
    List (String × EntityWithSentiment) :=
  results.foldl
    (fun acc r =>
      match r with
      | none => acc
      | some ents => insertBatchEntities acc ents) []

/-- main.py lines 283-286: walk the aggregation-stage entity list in order and
keep exactly the entities found in the merged dict. -/
def reorderEntities (input : List EntityWithNews)
    (d : List (String × EntityWithSentiment)) : List EntityWithSentiment :=
  input.filterMap (fun e => dictGet? d e.entity_name)

/-- Whether an entity name occurs in at least one successful batch result. -/
def inSomeSuccessfulBatch (results : List (Option (List EntityWithSentiment)))
    (k : String) : Bool :=
  results.any (fun r =>
    match r with
    | none => false
    | some ents => ents.any (fun e => e.entity_name == k))

theorem dictGet?_dictInsert (d : List (String × EntityWithSentiment)) (k : String)
    (v : EntityWithSentiment) (q : String) :
    dictGet? (dictInsert d k v) q = if k = q then some v else dictGet? d q := by
  induction d with
  | nil => simp [dictInsert, dictGet?]
  | cons p rest ih =>
    obtain ⟨a, b⟩ := p
    by_cases hak : a = k
    · subst hak
      simp only [dictInsert, if_pos rfl, dictGet?]
      by_cases haq : a = q
      · subst haq; simp
      · simp [haq]
    · simp only [dictInsert, if_neg hak, dictGet?, ih]
      by_cases haq : a = q
      · subst haq
        have hkq : ¬ k = a := fun h => hak h.symm
        simp [hkq]
      · simp [haq]

theorem insertBatch_isSome (ents : List EntityWithSentiment) :
    ∀ (d : List (String × EntityWithSentiment)) (k : String),
      (dictGet? (insertBatchEntities d ents) k).isSome
        = (ents.any (fun e => e.entity_name == k) || (dictGet? d k).isSome) := by
  induction ents with
  | nil => intro d k; simp [insertBatchEntities]
  | cons e rest ih =>
    intro d k
    simp only [insertBatchEntities, List.foldl_cons] at *
    rw [ih]
    simp only [List.any_cons, dictGet?_dictInsert]
    by_cases h : e.entity_name = k
    · simp [h]
    · have hb : (e.entity_name == k) = false := by
        simp [h]
      simp [h, hb]

theorem mergeResults_isSome_aux (results : List (Option (List EntityWithSentiment))) :
    ∀ (d : List (String × EntityWithSentiment)) (k : String),
      (dictGet? (results.foldl
          (fun acc r =>
            match r with
            | none => acc
            | some ents => insertBatchEntities acc ents) d) k).isSome
        = (inSomeSuccessfulBatch results k || (dictGet? d k).isSome) := by
  induction results with
  | nil => intro d k; simp [inSomeSuccessfulBatch]
  | cons r rest ih =>
    intro d k
    cases r with
    | none =>
      simp only [List.foldl_cons, inSomeSuccessfulBatch, List.any_cons] at *
      rw [ih]
      simp [inSomeSuccessfulBatch]
    | some ents =>
      simp only [List.foldl_cons, inSomeSuccessfulBatch, List.any_cons] at *
      rw [ih, insertBatch_isSome]
      simp [inSomeSuccessfulBatch, Bool.or_assoc, Bool.or_comm, Bool.or_left_comm]

theorem mergeResults_isSome (results : List (Option (List EntityWithSentiment)))
    (k : String) :
    (dictGet? (mergeBatchResults results) k).isSome = inSomeSuccessfulBatch results k := by
  unfold mergeBatchResults
  rw [mergeResults_isSome_aux]
  simp [dictGet?]

/-- Every stored value carries the key it is stored under. -/
def GoodDict (d : List (String × EntityWithSentiment)) : Prop :=
  ∀ p ∈ d, (p.2).entity_name = p.1

theorem goodDict_insert {d : List (String × EntityWithSentiment)} {k : String}
    {v : EntityWithSentiment} (hd : GoodDict d) (hv : v.entity_name = k) :
    GoodDict (dictInsert d k v) := by
  induction d with
  | nil =>
    intro p hp
    simp only [dictInsert, List.mem_singleton] at hp
    subst hp; exact hv
  | cons q rest ih =>
    obtain ⟨a, b⟩ := q
    have hb : b.entity_name = a := hd (a, b) (List.mem_cons_self _ _)
    have hrest : GoodDict rest := fun p hp => hd p (List.mem_cons_of_mem _ hp)
    intro p hp
    simp only [dictInsert] at hp
    by_cases hak : a = k
    · simp only [if_pos hak] at hp
      rcases List.mem_cons.mp hp with h | h
      · subst h; exact hv
      · exact hrest p h
    · simp only [if_neg hak] at hp
      rcases List.mem_cons.mp hp with h | h
      · subst h; exact hb
      · exact ih hrest p h

theorem goodDict_insertBatch (ents : List EntityWithSentiment) :
    ∀ {d : List (String × EntityWithSentiment)}, GoodDict d →
      GoodDict (insertBatchEntities d ents) := by
  induction ents with
  | nil => intro d hd; exact hd
  | cons e rest ih =>
    intro d hd
    simp only [insertBatchEntities, List.foldl_cons] at *
    exact ih (goodDict_insert hd rfl)

theorem goodDict_merge (results : List (Option (List EntityWithSentiment))) :
    GoodDict (mergeBatchResults results) := by
  unfold mergeBatchResults
  have : ∀ (d : List (String × EntityWithSentiment)), GoodDict d →
      GoodDict (results.foldl
        (fun acc r =>
          match r with
          | none => acc
          | some ents => insertBatchEntities acc ents) d) := by
    induction results with
    | nil => intro d hd; exact hd
    | cons r rest ih =>
      intro d hd
      cases r with
      | none => exact ih d hd
      | some ents => exact ih _ (goodDict_insertBatch ents hd)
  exact this [] (by intro p hp; cases hp)

theorem dictGet?_good {d : List (String × EntityWithSentiment)} {k : String}
    {v : EntityWithSentiment} (hd : GoodDict d) (h : dictGet? d k = some v) :
    v.entity_name = k := by
  induction d with
  | nil => cases h
  | cons p rest ih =>
    obtain ⟨a, b⟩ := p
    simp only [dictGet?] at h
    by_cases hak : a = k
    · rw [if_pos hak] at h
      have hb : b.entity_name = a := hd (a, b) (List.mem_cons_self _ _)
      cases h
      rw [hb, hak]
    · rw [if_neg hak] at h
      exact ih (fun p hp => hd p (List.mem_cons_of_mem _ hp)) h

theorem any_of_perm {α : Type} {l l' : List α} (h : l.Perm l') (f : α → Bool) :
    l.any f = l'.any f := by
  induction h with
  | nil => rfl
  | cons x _ ih => simp [List.any_cons, ih]
  | swap x y l => simp [List.any_cons, Bool.or_left_comm]
  | trans _ _ ih1 ih2 => rw [ih1, ih2]

theorem reorder_names (input : List EntityWithNews)
    (results : List (Option (List EntityWithSentiment))) :
    (reorderEntities input (mergeBatchResults results)).map (fun e => e.entity_name)
      = (input.filter (fun e => inSomeSuccessfulBatch results e.entity_name)).map
          (fun e => e.entity_name) := by
  induction input with
  | nil => simp [reorderEntities]
  | cons a rest ih =>
    cases hv : dictGet? (mergeBatchResults results) a.entity_name with
    | none =>
      have hb : inSomeSuccessfulBatch results a.entity_name = false := by
        rw [← mergeResults_isSome, hv]; rfl
      simpa [reorderEntities, List.filterMap_cons, List.filter_cons, hv, hb] using ih
    | some v =>
      have hb : inSomeSuccessfulBatch results a.entity_name = true := by
        rw [← mergeResults_isSome, hv]; rfl
      have hn : v.entity_name = a.entity_name :=
        dictGet?_good (goodDict_merge results) hv
      simpa [reorderEntities, List.filterMap_cons, List.filter_cons, hv, hb, hn] using ih

/-- C1: for every aggregation-stage entity list and every completion order of
the sentiment batch results, the merged output names the entities in the
aggregation-stage input order restricted to names present in at least one
successful batch, so entities absent from every successful batch are omitted,
and permuting the batch-result completion order leaves the final entity order
unchanged. -/
theorem merge_reorder_matches_input_order (input : List EntityWithNews)
    (results results' : List (Option (List EntityWithSentiment)))
    (hperm : results.Perm results') :
    ((reorderEntities input (mergeBatchResults results)).map (fun e => e.entity_name)
        = (input.filter (fun e => inSomeSuccessfulBatch results e.entity_name)).map
            (fun e => e.entity_name))
    ∧ (reorderEntities input (mergeBatchResults results')).map (fun e => e.entity_name)
        = (reorderEntities input (mergeBatchResults results)).map
            (fun e => e.entity_name) := by
  have hin : ∀ k, inSomeSuccessfulBatch results' k = inSomeSuccessfulBatch results k := by
    intro k
    exact (any_of_perm hperm _).symm
  constructor
  · exact reorder_names input results
  · rw [reorder_names input results, reorder_names input results']
    have : (fun (e : EntityWithNews) => inSomeSuccessfulBatch results' e.entity_name)
        = (fun (e : EntityWithNews) => inSomeSuccessfulBatch results e.entity_name) := by
      funext e; exact hin e.entity_name
    rw [this]

/-- C10: every entity in the final merged sentiment output takes its name from
the aggregation-stage entity list; the reorder loop of main.py lines 283-286
iterates only over that list, so a sentiment entity returned under a name not
present in the aggregation input never reaches the final output. -/
theorem final_entities_subset_of_aggregation (input : List EntityWithNews)
    (results : List (Option (List EntityWithSentiment))) (e : EntityWithSentiment)
    (he : e ∈ reorderEntities input (mergeBatchResults results)) :
    e.entity_name ∈ input.map (fun x => x.entity_name) := by
  unfold reorderEntities at he
  rw [List.mem_filterMap] at he
  obtain ⟨a, ha, hget⟩ := he
  have hn : e.entity_name = a.entity_name :=
    dictGet?_good (goodDict_merge results) hget
  rw [hn]
  exact List.mem_map_of_mem _ ha

/-! ## Concrete sample data for witnesses -/

def entA : EntityWithNews :=
  { entity_name := "A", relationship_strength := 1, relationship_type := "supplier",
    news := [] }

def entB : EntityWithNews :=
  { entity_name := "B", relationship_strength := 1, relationship_type := "competitor",
    news := [] }

def entC : EntityWithNews :=
  { entity_name := "C", relationship_strength := 1, relationship_type := "partner",
    news := [] }

def sentB : EntityWithSentiment :=
  { entity_name := "B", relationship_strength := 1, relationship_type := "competitor",
    news := [], sentiment_tokens := [] }

def wInput1 : List EntityWithNews := [entA, entB, entC]

def wResults1 : List (Option (List EntityWithSentiment)) := [some [sentB], none]

def wResults1sw : List (Option (List EntityWithSentiment)) := [none, some [sentB]]

theorem merge_reorder_matches_input_order_witness :
    wResults1.Perm wResults1sw
    ∧ (((reorderEntities wInput1 (mergeBatchResults wResults1)).map
            (fun e => e.entity_name)
          = (wInput1.filter (fun e => inSomeSuccessfulBatch wResults1 e.entity_name)).map
              (fun e => e.entity_name))
      ∧ (reorderEntities wInput1 (mergeBatchResults wResults1sw)).map
            (fun e => e.entity_name)
          = (reorderEntities wInput1 (mergeBatchResults wResults1)).map
              (fun e => e.entity_name)) := by
  have hperm : wResults1.Perm wResults1sw := List.Perm.swap _ _ _
  exact ⟨hperm, merge_reorder_matches_input_order wInput1 wResults1 wResults1sw hperm⟩

theorem final_entities_subset_of_aggregation_witness :
    sentB.entity_name ∈ wInput1.map (fun x => x.entity_name) :=
  final_entities_subset_of_aggregation wInput1 wResults1 sentB (by decide)

/-! ## Python exceptions -/

/-- The Python exception classes the sources raise or catch selectively. -/
inductive PyExc where
  | requestException (msg : String)
  | keyError (msg : String)
  | typeError (msg : String)
  | attributeError (msg : String)
  | validationError (msg : String)
deriving DecidableEq

def attrErrMsg : String := "NewsArticle object has no attribute sentiment_tokens"

/-- Python attribute access `article.sentiment_tokens` on `article : NewsArticle`.
schemas.py declares NewsArticle with the fields url, published_date, source and
title only, so pydantic raises AttributeError for this access (pydantic models
reject undeclared attributes). -/
def sentimentTokensAttr (_ : NewsArticle) : Except PyExc (List SentimentToken) :=
  Except.error (PyExc.attributeError attrErrMsg)

/-- main.py lines 347-351 (and 231-235 inside process_batch): the generator
`sum(len(article.sentiment_tokens) for entity in entities for article in entity.news)`.
The sum is 0 over zero articles; the first article evaluated raises. -/
def sumTokensOverArticles (entities : List EntityWithSentiment) : Except PyExc Nat :=
  ((entities.map (fun e => e.news)).flatten).foldlM
    (fun acc a => do
      let toks ← sentimentTokensAttr a
      pure (acc + toks.length)) 0

/-- main.py lines 209-245, process_batch: the batch body runs inside `try`; any
exception (the sentiment invocation raising, or the per-article token count of
lines 231-235 raising AttributeError) is caught at line 241 and turns the batch
result into `(None, batch_num)`: zero entities from this batch, siblings keep
running.  Only the entity-list component is modelled; the batch number is
positional. -/
def process_batch (invocation : Except PyExc SentimentAnalysisOutput) :
    Option (List EntityWithSentiment) :=
  let attempt : Except PyExc (List EntityWithSentiment) := do
    let out ← invocation
    let _ ← sumTokensOverArticles out.entities
    pure out.entities
  match attempt with
  | Except.ok ents => some ents
  | Except.error _ => none

/-- main.py lines 203-291: the whole sentiment stage.  Batch tasks are created
in partition order; `asyncio.gather` returns each chunk's results in task
order, so the merge loop consumes results in batch order. -/
def sentimentStage (inputEntities : List EntityWithNews)
    (invoke : List EntityWithNews → Except PyExc SentimentAnalysisOutput) :
    List EntityWithSentiment :=
  reorderEntities inputEntities
    (mergeBatchResults
      ((makeBatches inputEntities).map (fun b => process_batch (invoke b))))

/-- main.py line 96: the synthetic self entity
`RelatedEntity(entity_name=company_name, relationship_strength=1.0, relationship_type="self")`. -/
def selfEntity (company : String) : RelatedEntity :=
  { entity_name := company, relationship_strength := 1, relationship_type := "self" }

/-- main.py line 96: `enrichment_data.entities.append(...)`, executed exactly
once per pipeline invocation and unconditionally. -/
def addSelfEntity (company : String) (entities : List RelatedEntity) :
    List RelatedEntity :=
  entities ++ [selfEntity company]

/-- main.py lines 54-291, run_trading_signal_pipeline, data-flow skeleton: the
enrichment and aggregation invocations are awaited with no surrounding try, so
an exception from either propagates and ends the run; only the per-batch
sentiment invocations are guarded (inside process_batch).  Logging and JSON
snapshot writes carry no data flow and are elided here. -/
def run_trading_signal_pipeline (company : String)
    (enrich : Except PyExc EntityEnrichmentOutput)
    (aggregate : EntityEnrichmentOutput → Except PyExc NewsAggregationOutput)
    (sentimentInvoke : List EntityWithNews → Except PyExc SentimentAnalysisOutput) :
    Except PyExc SentimentAnalysisOutput := do
  let enr ← enrich
  let enriched : EntityEnrichmentOutput :=
    { company_name := enr.company_name,
      entities := addSelfEntity company enr.entities }
  let agg ← aggregate enriched
  let ents := sentimentStage agg.entities sentimentInvoke
  pure { company_name := agg.company_name, entities := ents }

/-! ## Concrete evaluations exhibiting the per-article token bug -/

def wArticle : NewsArticle :=
  { url := "https://example.com/article", published_date := "2024-11-07",
    source := "Reuters", title := "TSMC expands" }

def wTok : SentimentToken :=
  { token_text := "TSMC expands production capacity", impact := "positive",
    direction := "bullish", strength := 1 }

def sentCwithArticle : EntityWithSentiment :=
  { entity_name := "C", relationship_strength := 1, relationship_type := "partner",
    news := [wArticle], sentiment_tokens := [wTok] }

def sentCplain : EntityWithSentiment :=
  { entity_name := "C", relationship_strength := 1, relationship_type := "partner",
    news := [], sentiment_tokens := [wTok] }

def sentD : EntityWithSentiment :=
  { entity_name := "D", relationship_strength := 1, relationship_type := "customer",
    news := [], sentiment_tokens := [] }

/-- C8 (code bug): schemas.py attaches sentiment tokens at the entity level,
not per contained article; NewsArticle has no sentiment_tokens field, so the
reconciliation sum of main.py lines 347-351 raises AttributeError on the first
article instead of computing the per-article total (over zero articles it
returns 0, which is why only article-free outputs survive).  The sample entity
does carry entity-level tokens, yet the per-article access still fails. -/
theorem sentiment_tokens_not_per_article :
    sumTokensOverArticles [sentCwithArticle]
        = Except.error (PyExc.attributeError attrErrMsg)
    ∧ sumTokensOverArticles [sentCplain, sentD] = Except.ok 0
    ∧ sentCwithArticle.sentiment_tokens.length = 1
    ∧ sentCwithArticle.news.length = 1 := by
  refine ⟨rfl, rfl, rfl, rfl⟩

def entCnews : EntityWithNews :=
  { entity_name := "C", relationship_strength := 1, relationship_type := "partner",
    news := [wArticle] }

def entD : EntityWithNews :=
  { entity_name := "D", relationship_strength := 1, relationship_type := "customer",
    news := [] }

def wInput2 : List EntityWithNews := [entA, entB, entCnews, entD]

def wFailMsg : String := "agent output validation failed"

def wSentOut2 : SentimentAnalysisOutput :=
  { company_name := "Apple", entities := [sentCwithArticle, sentD] }

/-- A sentiment invoker that raises on the batch containing entity A and
returns a well-formed output (whose first entity carries one article) for
every other batch. -/
def wInvoke (b : List EntityWithNews) : Except PyExc SentimentAnalysisOutput :=
  if b.any (fun e => e.entity_name == "A") then
    Except.error (PyExc.validationError wFailMsg)
  else Except.ok wSentOut2

/-- The same invoker, except that the successful output carries no articles at
all (the only shape the token-count bug lets through). -/
def wInvokeNoArt (b : List EntityWithNews) : Except PyExc SentimentAnalysisOutput :=
  if b.any (fun e => e.entity_name == "A") then
    Except.error (PyExc.validationError wFailMsg)
  else Except.ok { company_name := "Apple", entities := [sentCplain, sentD] }

def wAgg (_ : EntityEnrichmentOutput) : Except PyExc NewsAggregationOutput :=
  Except.ok { company_name := "Apple", entities := wInput2 }

/-- C2 (code bug): with M = 2 batches over [A,B,C,D], the invocation for batch
[A,B] raises and is caught at the batch boundary, and an enrichment-stage
exception propagates uncaught (last conjunct) — both as the claim says.  But
the sibling batch [C,D] succeeds with a nonempty entity list whose first entity
carries one article, and the final output is empty rather than [C,D]: the
per-article token count inside the try block of process_batch raises
AttributeError for every batch whose output contains an article, so the
promised M−1 surviving batches are also dropped.  Only when the surviving
batch's entities carry no articles does the claimed isolation hold (fifth
conjunct). -/
theorem batch_failure_isolation_bug :
    wInvoke (pySlice wInput2 0 2) = Except.error (PyExc.validationError wFailMsg)
    ∧ wInvoke (pySlice wInput2 2 4) = Except.ok wSentOut2
    ∧ wSentOut2.entities = [sentCwithArticle, sentD]
    ∧ sentimentStage wInput2 wInvoke = []
    ∧ sentimentStage wInput2 wInvokeNoArt = [sentCplain, sentD]
    ∧ run_trading_signal_pipeline "Apple"
        (Except.error (PyExc.validationError wFailMsg)) wAgg wInvoke
        = Except.error (PyExc.validationError wFailMsg) := by
  refine ⟨rfl, rfl, rfl, ?_, ?_, rfl⟩
  · decide
  · decide

/-! ## News fetchers (tools.py lines 12-65, entity-news-mcp/utils.py) -/

/-- Outcome of `requests.get(...)` followed by `.json()`: a raised transport
exception, or a response with a status code and a body; body `none` means the
body is not valid JSON, so `.json()` raises `requests.exceptions.JSONDecodeError`
(a RequestException subclass). -/
inductive NewsApiResponse (β : Type) where
  | transportError (msg : String)
  | response (status : Nat) (body : Option β)

/-- A raw GNews article dict; every field is read with `.get`, which never
raises, so a missing key is simply `none`.  `sourceName` stands for
`article.get('source', {}).get('name')`. -/
structure RawGNewsArticle where
  url : Option String
  publishedAt : Option String
  sourceName : Option String
  title : Option String
  description : Option String
deriving DecidableEq

/-- A GNews response body; the code reads only `data.get('articles', [])`. -/
structure GNewsBody where
  articles : Option (List RawGNewsArticle)
deriving DecidableEq

/-- The dict built by tools.py lines 50-56 for each article. -/
structure FormattedArticle where
  url : Option String
  published_date : Option String
  source : Option String
  title : Option String
  description : Option String
deriving DecidableEq

def formatGNewsArticle (a : RawGNewsArticle) : FormattedArticle :=
  { url := a.url, published_date := a.publishedAt, source := a.sourceName,
    title := a.title, description := a.description }

def httpErrMsg : String := "HTTPError"

def jsonDecodeErrMsg : String := "JSONDecodeError"

/-- The try block shared by the GNews fetchers: `requests.get` (may raise a
RequestException), `raise_for_status()` (raises HTTPError, a RequestException,
on a 4xx/5xx status), `.json()` (raises a RequestException subclass on a
malformed body), then `data.get('articles', [])`. -/
def gnewsTryBody (r : NewsApiResponse GNewsBody) : Except PyExc (List RawGNewsArticle) :=
  match r with
  | NewsApiResponse.transportError m => Except.error (PyExc.requestException m)
  | NewsApiResponse.response status body =>
    if 400 ≤ status then Except.error (PyExc.requestException httpErrMsg)
    else
      match body with
      | none => Except.error (PyExc.requestException jsonDecodeErrMsg)
      | some data => Except.ok (data.articles.getD [])

/-- tools.py lines 12-65, get_entity_news: the whole body sits in a
`try/except Exception` whose handler returns `json.dumps([])`; the return
value is modelled as the article list its JSON string encodes. -/
def get_entity_news (r : NewsApiResponse GNewsBody) : Except PyExc (List FormattedArticle) :=
  match gnewsTryBody r with
  | Except.ok arts => Except.ok (arts.map formatGNewsArticle)
  | Except.error _ => Except.ok []

/-- An argument passed as the `limit` parameter of `traceback.format_exc`. -/
inductive PyTracebackLimit where
  | noneLimit
  | intLimit (n : Int)
  | excLimit (e : PyExc)

def tracebackText : String := "Traceback (most recent call last)"

def limitCmpErrMsg : String := "unsupported comparison between exception and int"

/-- CPython `traceback.format_exc(limit=None, chain=True)`: when `limit` is not
None, `StackSummary.extract` evaluates `limit >= 0`; an exception object passed
as `limit` makes that comparison raise TypeError. -/
def format_exc (limit : PyTracebackLimit) : Except PyExc String :=
  match limit with
  | PyTracebackLimit.noneLimit => Except.ok tracebackText
  | PyTracebackLimit.intLimit _ => Except.ok tracebackText
  | PyTracebackLimit.excLimit _ => Except.error (PyExc.typeError limitCmpErrMsg)

/-- utils.py lines 57-89, get_entity_news_from_gnews: same try body, but the
`except Exception as e` handler first evaluates `print(format_exc(e))`, passing
the caught exception as the limit argument; that call raises TypeError, so the
handler never reaches its `return []`. -/
def get_entity_news_from_gnews (r : NewsApiResponse GNewsBody) :
    Except PyExc (List RawGNewsArticle) :=
  match gnewsTryBody r with
  | Except.ok arts => Except.ok arts
  | Except.error e =>
    match format_exc (PyTracebackLimit.excLimit e) with
    | Except.error e2 => Except.error e2
    | Except.ok _ => Except.ok []

/-- The `source` dict of a NewsAPI article; `article['source']['name']`. -/
structure ApiSourceDict where
  name : Option String
deriving DecidableEq

/-- A NewsAPI article dict.  An Option field stands for presence of the key:
`a['key']` on a missing key raises KeyError, while `a.get('urlToImage')` never
raises. -/
structure ApiArticleDict where
  title : Option String
  url : Option String
  source : Option ApiSourceDict
  description : Option String
  publishedAt : Option String
  urlToImage : Option String
deriving DecidableEq

/-- A NewsAPI response body; the code reads `data['status']`,
`data.get('message', ...)` and `data['articles']`. -/
structure ApiBody where
  status : Option String
  message : Option String
  articles : Option (List ApiArticleDict)
deriving DecidableEq

/-- The normalized article built by utils.py lines 40-48. -/
structure NormArticle where
  title : String
  url : String
  source : String
  description : String
  published_at : String
  image : Option String
deriving DecidableEq

/-- Python subscription `d[key]`: KeyError when the key is missing. -/
def dictIndex {α : Type} (v : Option α) (key : String) : Except PyExc α :=
  match v with
  | some x => Except.ok x
  | none => Except.error (PyExc.keyError key)

def keyStatus : String := "status"

def keyArticles : String := "articles"

def keyTitle : String := "title"

def keyUrl : String := "url"

def keySource : String := "source"

def keyName : String := "name"

def keyDescription : String := "description"

def keyPublishedAt : String := "publishedAt"

/-- utils.py lines 39-48: each article is normalized with plain subscription,
so any missing key raises KeyError (only urlToImage uses `.get`). -/
def normalizeApiArticle (a : ApiArticleDict) : Except PyExc NormArticle := do
  let t ← dictIndex a.title keyTitle
  let u ← dictIndex a.url keyUrl
  let s ← dictIndex a.source keySource
  let n ← dictIndex s.name keyName
  let d ← dictIndex a.description keyDescription
  let p ← dictIndex a.publishedAt keyPublishedAt
  pure { title := t, url := u, source := n, description := d, published_at := p,
         image := a.urlToImage }

/-- utils.py lines 4-54, get_entity_news_from_api: the try body performs the
request, `raise_for_status`, `.json()`, reads `data['status']` (KeyError if
missing), returns [] when the status is not the ok string, reads
`data['articles']` and normalizes each article.  The except clause catches only
`requests.exceptions.RequestException`; a KeyError from a malformed 200
response propagates. -/
def get_entity_news_from_api (r : NewsApiResponse ApiBody) :
    Except PyExc (List NormArticle) :=
  let attempt : Except PyExc (List NormArticle) :=
    match r with
    | NewsApiResponse.transportError m => Except.error (PyExc.requestException m)
    | NewsApiResponse.response status body =>
      if 400 ≤ status then Except.error (PyExc.requestException httpErrMsg)
      else
        match body with
        | none => Except.error (PyExc.requestException jsonDecodeErrMsg)
        | some data => do
          let st ← dictIndex data.status keyStatus
          if st ≠ "ok" then pure []
          else do
            let arts ← dictIndex data.articles keyArticles
            arts.mapM normalizeApiArticle
  match attempt with
  | Except.ok arts => Except.ok arts
  | Except.error (PyExc.requestException _) => Except.ok []
  | Except.error e => Except.error e

def timeoutMsg : String := "ReadTimeout"

def emptyApiBody : ApiBody := { status := none, message := none, articles := none }

/-- C4 (code bug): the orchestrator-side fetcher (tools.py get_entity_news)
indeed returns the empty list and never raises, here on a transport error, a
500 status and a malformed JSON body.  But the entity-news-mcp fetchers do
raise: get_entity_news_from_gnews raises TypeError out of its own except
handler on any error (format_exc is called with the caught exception as its
limit argument), and get_entity_news_from_api raises KeyError on a 200
response whose JSON lacks the status key. -/
theorem news_fetcher_error_handling :
    get_entity_news (NewsApiResponse.transportError timeoutMsg) = Except.ok []
    ∧ get_entity_news (NewsApiResponse.response 500 (some { articles := none }))
        = Except.ok []
    ∧ get_entity_news (NewsApiResponse.response 200 none) = Except.ok []
    ∧ get_entity_news_from_gnews (NewsApiResponse.transportError timeoutMsg)
        = Except.error (PyExc.typeError limitCmpErrMsg)
    ∧ get_entity_news_from_api (NewsApiResponse.response 200 (some emptyApiBody))
        = Except.error (PyExc.keyError keyStatus) := by
  refine ⟨rfl, rfl, rfl, rfl, rfl⟩

/-! ## Concurrency bound (main.py lines 247-280) -/

/-- Scheduling events of the sentiment stage: batch i starts running, batch i
finishes (successfully or not). -/
inductive BatchEv where
  | start (i : Nat)
  | fin (i : Nat)
deriving DecidableEq

def isStartEv : BatchEv → Bool
  | BatchEv.start _ => true
  | BatchEv.fin _ => false

def startCount (tr : List BatchEv) : Nat := tr.countP isStartEv

def finCount (tr : List BatchEv) : Nat := tr.countP (fun e => !isStartEv e)

/-- Number of batch invocations in flight after the events `tr`. -/
def inFlight (tr : List BatchEv) : Nat := startCount tr - finCount tr

/-- main.py lines 263-264: `batch_tasks[i:i + MAX_CONCURRENT_BATCHES]` for `i`
in `range(0, len(batch_tasks), MAX_CONCURRENT_BATCHES)`, with batches named by
index. -/
def taskChunks (numBatches : Nat) : List (List Nat) :=
  (pyRangeStep 0 numBatches MAX_CONCURRENT_BATCHES).map
    (fun i => pySlice (List.range numBatches) i (i + MAX_CONCURRENT_BATCHES))

def chunkEvents (c : List Nat) : List BatchEv :=
  c.map BatchEv.start ++ c.map BatchEv.fin

/-- One awaited `asyncio.gather(*chunk)` group: the coroutines of the chunk are
unstarted until gather schedules them, and gather returns only when each has
finished, so the group's segment carries exactly one start and one finish per
batch of the chunk, in any interleaving (completion order is unspecified). -/
def ValidGroupRun (c : List Nat) (s : List BatchEv) : Prop :=
  s.Perm (chunkEvents c)

/-- A possible event trace of the sentiment stage: the concatenation of one
complete group segment per chunk, in chunk order (the for loop awaits each
gather before building the next chunk). -/
def ValidStageTrace (numBatches : Nat) (tr : List BatchEv) : Prop :=
  ∃ segs : List (List BatchEv),
    tr = segs.flatten ∧ List.Forall₂ ValidGroupRun (taskChunks numBatches) segs

theorem countP_map_true {α β : Type} (f : α → β) (p : β → Bool) (l : List α)
    (h : ∀ a, p (f a) = true) : List.countP p (l.map f) = l.length := by
  induction l with
  | nil => rfl
  | cons a l ih => simp [List.countP_cons, h, ih]

theorem countP_map_false {α β : Type} (f : α → β) (p : β → Bool) (l : List α)
    (h : ∀ a, p (f a) = false) : List.countP p (l.map f) = 0 := by
  induction l with
  | nil => rfl
  | cons a l ih => simp [List.countP_cons, h, ih]

theorem group_counts {c : List Nat} {s : List BatchEv} (h : ValidGroupRun c s) :
    startCount s = c.length ∧ finCount s = c.length := by
  unfold ValidGroupRun at h
  constructor
  · rw [startCount, h.countP_eq, chunkEvents, List.countP_append]
    rw [countP_map_true _ _ _ (fun a => rfl), countP_map_false _ _ _ (fun a => rfl)]
    omega
  · rw [finCount, h.countP_eq, chunkEvents, List.countP_append]
    rw [countP_map_false _ _ _ (fun a => rfl), countP_map_true _ _ _ (fun a => rfl)]
    omega

theorem chunk_len_le (numBatches : Nat) (c : List Nat)
    (hc : c ∈ taskChunks numBatches) : c.length ≤ MAX_CONCURRENT_BATCHES := by
  unfold taskChunks at hc
  rw [List.mem_map] at hc
  obtain ⟨s, _, hs⟩ := hc
  subst hs
  simp only [pySlice, List.length_drop, List.length_take, List.length_range,
    MAX_CONCURRENT_BATCHES]
  omega

theorem flatten_prefix_inFlight :
    ∀ (chunks : List (List Nat)) (segs : List (List BatchEv)),
      List.Forall₂ ValidGroupRun chunks segs →
      (∀ c ∈ chunks, c.length ≤ MAX_CONCURRENT_BATCHES) →
      ∀ p q, segs.flatten = p ++ q → inFlight p ≤ MAX_CONCURRENT_BATCHES := by
  intro chunks segs h
  induction h with
  | nil =>
    intro _ p q hpq
    have hp : p = [] := (List.append_eq_nil.mp hpq.symm).1
    subst hp
    decide
  | @cons c s l1 l2 h1 h2 ih =>
    intro hb p q hpq
    rw [List.flatten_cons] at hpq
    rcases List.append_eq_append_iff.mp hpq.symm with ⟨a2, hs_eq, _⟩ | ⟨c2, hp_eq, hrest⟩
    · -- s = p ++ a2 : p is a prefix of the first segment
      have hsp : startCount p ≤ startCount s := by
        rw [hs_eq, startCount, startCount, List.countP_append]
        omega
      have hcl : c.length ≤ MAX_CONCURRENT_BATCHES := hb c (List.mem_cons_self _ _)
      have hsc : startCount s = c.length := (group_counts h1).1
      unfold inFlight
      unfold MAX_CONCURRENT_BATCHES at *
      omega
    · -- p = s ++ c2 and l2.flatten = c2 ++ q
      subst hp_eq
      have hih := ih (fun d hd => hb d (List.mem_cons_of_mem _ hd)) c2 q hrest
      have hgs : startCount s = c.length := (group_counts h1).1
      have hgf : finCount s = c.length := (group_counts h1).2
      unfold inFlight startCount finCount at hih ⊢
      rw [List.countP_append, List.countP_append]
      unfold startCount at hgs
      unfold finCount at hgf
      omega

theorem mem_flatten_of_chunk :
    ∀ (chunks : List (List Nat)) (segs : List (List BatchEv)),
      List.Forall₂ ValidGroupRun chunks segs →
      ∀ (j : Nat) (cj : List Nat), chunks[j]? = some cj → ∀ ev ∈ chunkEvents cj, ev ∈ segs.flatten := by
  intro chunks segs h
  induction h with
  | nil => intro j cj hj; simp at hj
  | @cons c s l1 l2 h1 h2 ih =>
    intro j cj hj ev hev
    cases j with
    | zero =>
      simp only [List.getElem?_cons_zero, Option.some_inj] at hj
      subst hj
      rw [List.flatten_cons]
      exact List.mem_append_left _ (h1.mem_iff.mpr hev)
    | succ j =>
      rw [List.flatten_cons]
      exact List.mem_append_right _ (ih j cj (by simpa using hj) ev hev)

theorem barrier_aux :
    ∀ (chunks : List (List Nat)) (segs : List (List BatchEv)),
      List.Forall₂ ValidGroupRun chunks segs →
      ∀ (i j : Nat) (ci cj : List Nat), i < j → chunks[i]? = some ci → chunks[j]? = some cj →
        ∃ u v, segs.flatten = u ++ v
          ∧ (∀ ev ∈ chunkEvents ci, ev ∈ u) ∧ (∀ ev ∈ chunkEvents cj, ev ∈ v) := by
  intro chunks segs h
  induction h with
  | nil => intro i j ci cj hij hi hj; simp at hi
  | @cons c s l1 l2 h1 h2 ih =>
    intro i j ci cj hij hi hj
    cases i with
    | zero =>
      cases j with
      | zero => omega
      | succ j =>
        simp only [List.getElem?_cons_zero, Option.some_inj] at hi
        subst hi
        refine ⟨s, l2.flatten, List.flatten_cons .., ?_, ?_⟩
        · intro ev hev
          exact h1.mem_iff.mpr hev
        · intro ev hev
          exact mem_flatten_of_chunk l1 l2 h2 j cj (by simpa using hj) ev hev
    | succ i =>
      cases j with
      | zero => omega
      | succ j =>
        obtain ⟨u, v, hflat, hu, hv⟩ :=
          ih i j ci cj (by omega) (by simpa using hi) (by simpa using hj)
        refine ⟨s ++ u, v, ?_, ?_, hv⟩
        · rw [List.flatten_cons, hflat, List.append_assoc]
        · intro ev hev
          exact List.mem_append_right _ (hu ev hev)

/-- C5: in every possible execution trace of the sentiment stage, at most
MAX_CONCURRENT_BATCHES (= 3) batch invocations are in flight at any point, and
for any two chunks in launch order, every batch of the earlier chunk finishes
before any batch of the later chunk starts: the orchestrator awaits the whole
concurrent group before launching the next one. -/
theorem concurrency_bound_and_group_barrier (numBatches : Nat) (tr : List BatchEv)
    (h : ValidStageTrace numBatches tr) :
    (∀ p q, tr = p ++ q → inFlight p ≤ MAX_CONCURRENT_BATCHES)
    ∧ (∀ (i j : Nat) (ci cj : List Nat), i < j → (taskChunks numBatches)[i]? = some ci →
        (taskChunks numBatches)[j]? = some cj →
        ∃ u v, tr = u ++ v ∧ (∀ b ∈ ci, BatchEv.fin b ∈ u)
          ∧ (∀ b ∈ cj, BatchEv.start b ∈ v)) := by
  obtain ⟨segs, htr, hforall⟩ := h
  subst htr
  constructor
  · exact flatten_prefix_inFlight _ _ hforall
      (fun c hc => chunk_len_le numBatches c hc)
  · intro i j ci cj hij hi hj
    obtain ⟨u, v, hflat, hu, hv⟩ := barrier_aux _ _ hforall i j ci cj hij hi hj
    refine ⟨u, v, hflat, ?_, ?_⟩
    · intro b hb
      exact hu _ (List.mem_append_right _ (List.mem_map_of_mem _ hb))
    · intro b hb
      exact hv _ (List.mem_append_left _ (List.mem_map_of_mem _ hb))

def wSeg1 : List BatchEv := chunkEvents [0, 1, 2]

def wSeg2 : List BatchEv := chunkEvents [3]

def wTrace : List BatchEv := wSeg1 ++ wSeg2

theorem concurrency_bound_witness :
    inFlight wSeg1 ≤ MAX_CONCURRENT_BATCHES := by
  have hchunks : taskChunks 4 = [[0, 1, 2], [3]] := by decide
  have hvalid : ValidStageTrace 4 wTrace := by
    refine ⟨[wSeg1, wSeg2], by simp [wTrace], ?_⟩
    rw [hchunks]
    exact List.Forall₂.cons (List.Perm.refl _)
      (List.Forall₂.cons (List.Perm.refl _) List.Forall₂.nil)
  exact (concurrency_bound_and_group_barrier 4 wTrace hvalid).1 wSeg1 wSeg2 rfl

/-! ## Self entity (main.py lines 94-100) -/

def wEnrichEntities : List RelatedEntity :=
  [{ entity_name := "TSMC", relationship_strength := 1, relationship_type := "supplier" },
   { entity_name := "Samsung", relationship_strength := 1, relationship_type := "competitor" }]

/-- C6: when the enrichment output does not already contain the primary company
by name, the enriched list contains exactly one synthetic self entity (name =
company, relationship_type self, relationship_strength 1.0); it is appended
once at the end of the list and not duplicated within the invocation (the
append statement of main.py line 96 executes exactly once per run). -/
theorem self_entity_insertion (company : String) (entities : List RelatedEntity)
    (h : ∀ e ∈ entities, e.entity_name ≠ company) :
    (addSelfEntity company entities).countP
        (fun e => decide (e.entity_name = company ∧ e.relationship_type = "self"
          ∧ e.relationship_strength = 1)) = 1
    ∧ addSelfEntity company entities = entities ++ [selfEntity company]
    ∧ (addSelfEntity company entities).getLast? = some (selfEntity company) := by
  refine ⟨?_, rfl, ?_⟩
  · unfold addSelfEntity
    rw [List.countP_append]
    have h0 : entities.countP
        (fun e => decide (e.entity_name = company ∧ e.relationship_type = "self"
          ∧ e.relationship_strength = 1)) = 0 := by
      rw [List.countP_eq_zero]
      intro e he
      simp only [decide_eq_true_eq]
      intro hc
      exact h e he hc.1
    rw [h0]
    simp [selfEntity, List.countP_cons]
  · unfold addSelfEntity
    simp

theorem self_entity_insertion_witness :
    (∀ e ∈ wEnrichEntities, e.entity_name ≠ "Apple")
    ∧ ((addSelfEntity "Apple" wEnrichEntities).countP
          (fun e => decide (e.entity_name = "Apple" ∧ e.relationship_type = "self"
            ∧ e.relationship_strength = 1)) = 1
      ∧ addSelfEntity "Apple" wEnrichEntities
          = wEnrichEntities ++ [selfEntity "Apple"]
      ∧ (addSelfEntity "Apple" wEnrichEntities).getLast? = some (selfEntity "Apple")) := by
  have h : ∀ e ∈ wEnrichEntities, e.entity_name ≠ "Apple" := by decide
  exact ⟨h, self_entity_insertion "Apple" wEnrichEntities h⟩

/-! ## News-Fetcher call counter (main.py lines 7, 65, 168-176) -/

/-- Modelled from the spec: main.py imports get_tool_call_count and
reset_tool_call_counter from tools (line 7) and calls them (lines 65 and 168),
but the provided tools.py defines neither.  Spec sections 4.3 and 5 describe
the missing part: a process-wide per-tool-name counter, incremented by every
invocation and reset only at the start of a pipeline run. -/
def ToolCallCounter : Type := String → Nat

/-- Modelled from the spec: main.py line 65, reset at the start of each run. -/
def reset_tool_call_counter (_ : ToolCallCounter) : ToolCallCounter := fun _ => 0

/-- Modelled from the spec: every News-Fetcher invocation increments the
counter under its tool name. -/
def recordToolCall (c : ToolCallCounter) (tool : String) : ToolCallCounter :=
  fun t => if t = tool then c t + 1 else c t

/-- main.py line 168: `get_tool_call_count("get_entity_news")`. -/
def get_tool_call_count (c : ToolCallCounter) (tool : String) : Nat := c tool

def newsToolName : String := "get_entity_news"

/-- n successive News-Fetcher invocations within one pipeline run. -/
def runFetcherCalls (c : ToolCallCounter) : Nat → ToolCallCounter
  | 0 => c
  | n + 1 => recordToolCall (runFetcherCalls c n) newsToolName

/-- main.py lines 173-176: a count below expectation is only logged and
printed; the diagnostic is a value, nothing is raised and the run continues. -/
def toolCallAnomaly (toolCalls expected : Nat) : Option String :=
  if toolCalls < expected then
    some ("WARNING: Only " ++ toString toolCalls ++ " tool calls made, expected "
      ++ toString expected)
  else none

/-- C7: starting from any prior counter state, a run first resets the counter;
after n News-Fetcher invocations the orchestrator query reads exactly n, and
comparing it with the expected entity count yields a warning value exactly when
the count falls short — a non-fatal diagnostic, never an exception. -/
theorem tool_call_counter_reconciliation (c0 : ToolCallCounter) (n expected : Nat) :
    get_tool_call_count (runFetcherCalls (reset_tool_call_counter c0) n) newsToolName = n
    ∧ (toolCallAnomaly
          (get_tool_call_count (runFetcherCalls (reset_tool_call_counter c0) n)
            newsToolName)
          expected).isSome = decide (n < expected) := by
  have hcount : ∀ (c : ToolCallCounter) (m : Nat),
      get_tool_call_count (runFetcherCalls c m) newsToolName
        = get_tool_call_count c newsToolName + m := by
    intro c m
    induction m with
    | zero => rfl
    | succ m ih =>
      have hstep : runFetcherCalls c (m + 1) newsToolName
          = runFetcherCalls c m newsToolName + 1 := by
        show recordToolCall (runFetcherCalls c m) newsToolName newsToolName
            = runFetcherCalls c m newsToolName + 1
        unfold recordToolCall
        rw [if_pos rfl]
      unfold get_tool_call_count at ih ⊢
      omega
  constructor
  · rw [hcount]
    show 0 + n = n
    omega
  · rw [hcount]
    show (toolCallAnomaly (0 + n) expected).isSome = decide (n < expected)
    unfold toolCallAnomaly
    rw [Nat.zero_add]
    by_cases h : n < expected
    · simp [h]
    · simp [h]

/-! ## Snapshot file names (main.py lines 105, 147, 355) -/

/-- Python `str.lower()` on the ASCII company names used here. -/
def pyLower (s : String) : String := String.mk (s.data.map Char.toLower)

/-- Python `str.replace(' ', '_')`: every space becomes an underscore. -/
def pyReplaceSpaceUnderscore (s : String) : String :=
  String.mk (s.data.map (fun c => if c = ' ' then '_' else c))

/-- main.py lines 105, 147, 355: `company_name.lower().replace(' ', '_')`. -/
def companyKey (company : String) : String :=
  pyReplaceSpaceUnderscore (pyLower company)

def step1Prefix : String := "step1_entity_enrichment_"

def step2Prefix : String := "step2_news_aggregation_"

def step3Prefix : String := "step3_sentiment_analysis_"

def jsonSuffix : String := ".json"

def step1File (c : String) : String := step1Prefix ++ companyKey c ++ jsonSuffix

def step2File (c : String) : String := step2Prefix ++ companyKey c ++ jsonSuffix

def step3File (c : String) : String := step3Prefix ++ companyKey c ++ jsonSuffix

/-- The claim wording taken literally: lower-cased and space-stripped, i.e.
spaces removed. -/
def specSpaceStrippedKey (c : String) : String :=
  String.mk ((pyLower c).data.filter (fun ch => ch != ' '))

def gmName : String := "General Motors"

/-- C9 counterexample: for a company name containing a space the code keys the
snapshot files by the lower-cased name with spaces replaced by underscores, not
by the space-stripped name: for General Motors the stage-1 file is keyed
general_motors, while the space-stripped key would be generalmotors. -/
theorem snapshot_filename_not_space_stripped :
    companyKey gmName = "general_motors"
    ∧ specSpaceStrippedKey gmName = "generalmotors"
    ∧ step1File gmName ≠ step1Prefix ++ specSpaceStrippedKey gmName ++ jsonSuffix := by
  refine ⟨by decide, by decide, by decide⟩

/-- A file system as a map from path to contents; `open(f, 'w')` with
`json.dump` replaces the contents at the path. -/
def FsState : Type := String → Option String

def writeFile (fs : FsState) (name content : String) : FsState :=
  fun n => if n = name then some content else fs n

/-- C9 amended: each stage writes its JSON snapshot to a file named by the
stage and the lower-cased company name with spaces replaced by underscores
(for the space-free name Apple the stage-1 file is keyed apple, as the claim's
example says), and rerunning the pipeline for the same company computes the
same deterministic names, so the rerun's write overwrites the earlier file. -/
theorem snapshot_filenames_and_overwrite (c : String) (fs : FsState)
    (content1 content2 : String) :
    step1File c = step1Prefix ++ pyReplaceSpaceUnderscore (pyLower c) ++ jsonSuffix
    ∧ step2File c = step2Prefix ++ pyReplaceSpaceUnderscore (pyLower c) ++ jsonSuffix
    ∧ step3File c = step3Prefix ++ pyReplaceSpaceUnderscore (pyLower c) ++ jsonSuffix
    ∧ step1File "Apple" = "step1_entity_enrichment_apple.json"
    ∧ writeFile (writeFile fs (step1File c) content1) (step1File c) content2
        = writeFile fs (step1File c) content2 := by
  refine ⟨rfl, rfl, rfl, by decide, ?_⟩
  funext n
  unfold writeFile
  by_cases h : n = step1File c
  · simp [h]
  · simp [h]
